import Mathlib

/-!
Formal model of the `python_scraper` repository
(`web_scraper.py`, `youtube_info.py`), as a shallow embedding.

Modelling conventions:
* URLs are kept structurally (`Url` records scheme, netloc, path); rendering a
  `Url` to a string mirrors what Python's string-level operations
  (`absolute_url.lower()`, substring tests) see, while `urlparse(u).netloc`
  is the `netloc` field by construction.
* HTML parsing (BeautifulSoup) is abstracted: a fetched `Page` provides, for
  each selector of `web_scraper.py`'s `video_selectors` list, the list of
  matched elements, and the list of anchor hrefs on the page.  An `Element`
  carries the sub-fields that `extract_video_data` reads (the stripped text of
  the first heading-like child, the first anchor href, its own href when the
  element is itself an anchor, the first image src, duration/views texts).
* Network effects are a function `Web.fetch : Url → Except String Page`:
  `.error msg` models any raised exception (timeout, non-2xx via
  `raise_for_status`, connection error); `.ok page` a successful parse.
* Wall-clock data (`start_time`, `current_time`, `scraped_at`, the politeness
  `time.sleep`) and file-system writes (`progress.json`, `save_results`) are
  not modelled: they do not alter the crawl state.
* Python recursion is modelled with an explicit `fuel` parameter; all
  theorems hold for every fuel value.
* Two instrumentation fields record observables: `trace` logs every progress
  snapshot emitted by `update_progress` (the `print(json.dumps(...))` line),
  and `fetches` logs every `(url, depth)` at which `self.session.get` is
  dispatched (line 64).
-/

/-- A structured URL: `netloc` is what Python's `urlparse(u).netloc` returns. -/
structure Url where
  scheme : String
  netloc : String
  path : String
deriving DecidableEq, Repr

/-- Rendering a structured URL back to the string the Python code manipulates. -/
def Url.render (u : Url) : String :=
  u.scheme ++ "://" ++ u.netloc ++ u.path

/-- An anchor href as found in a page: either already absolute, or a
root-relative path (the forms exercised by the crawler). -/
inductive Href where
  | absolute (u : Url)
  | relative (path : String)
deriving DecidableEq, Repr

/-- Model of `urllib.parse.urljoin(base, href)` for the href forms above:
an absolute href replaces the base, a root-relative path replaces its path. -/
def urljoin (base : Url) (h : Href) : Url :=
  match h with
  | .absolute u => u
  | .relative p => { base with path := p }

/-- Python string slicing `s[:n]`: take the first `n` characters. -/
def strTake (s : String) (n : Nat) : String :=
  ⟨s.data.take n⟩

/-- `pat` is a prefix of `l` (character lists). -/
def subAt : List Char → List Char → Bool
  | [], _ => true
  | _ :: _, [] => false
  | p :: ps, c :: cs => p == c && subAt ps cs

/-- `pat` occurs somewhere inside `l` (character lists). -/
def hasSub (pat : List Char) : List Char → Bool
  | [] => subAt pat []
  | c :: cs => subAt pat (c :: cs) || hasSub pat cs

/-- Python's `pat in s` substring test. -/
def strHasSub (s pat : String) : Bool :=
  hasSub pat.data s.data

/-- ASCII lowercasing of one character (Python's `str.lower()` restricted to
the ASCII range, which is all the crawler's URL strings use). -/
def lowerChar (c : Char) : Char :=
  if 65 ≤ c.toNat ∧ c.toNat ≤ 90 then Char.ofNat (c.toNat + 32) else c

/-- Python's `s.lower()` on ASCII strings. -/
def strLower (s : String) : String :=
  ⟨s.data.map lowerChar⟩

/-- The extension list of `web_scraper.py` line 116. -/
def non_page_exts : List String :=
  [".jpg", ".png", ".mp4", ".mp3", ".pdf"]

/-- Line 116: `any(ext in absolute_url.lower() for ext in [...])` — a
substring test against the whole lowercased URL string. -/
def anyExtIn (absolute_url : Url) : Bool :=
  non_page_exts.any (fun ext => strHasSub (strLower absolute_url.render) ext)

/-- A video candidate as built by `extract_video_data` (the `scraped_at`
timestamp is not modelled). -/
structure VideoData where
  url : Url
  title : Option String
  thumbnail : Option Url
  duration : Option String
  views : Option String
deriving DecidableEq, Repr

/-- The sub-fields of an HTML element that `extract_video_data` reads.
`titleText` is the stripped text of the first heading/anchor/span/div child
(`none` when no such child); `linkHref` the href of the first `<a href>`
child; `selfAnchorHref` the element's own href when it is itself an `<a>`
with an href; `imgSrc` the src of the first `<img src>` child;
`durationText` / `viewsText` the stripped texts of the first child whose
class mentions duration/time/length resp. view/watch. -/
structure Element where
  titleText : Option String
  linkHref : Option Href
  selfAnchorHref : Option Href
  imgSrc : Option Href
  durationText : Option String
  viewsText : Option String
deriving DecidableEq, Repr

/-- `VideoScraper.extract_video_data` (lines 126–164): build a candidate
record; the title is kept only when non-empty and truncated to 200
characters; the url comes from the first anchor child, else from the element
itself when it is an anchor, resolved against the page URL; the function
returns `none` unless a url was found. -/
def extract_video_data (element : Element) (base_url : Url) : Option VideoData :=
  let title : Option String :=
    match element.titleText with
    | some t => if t = "" then none else some (strTake t 200)
    | none => none
  let url? : Option Url :=
    match element.linkHref with
    | some h => some (urljoin base_url h)
    | none =>
      match element.selfAnchorHref with
      | some h => some (urljoin base_url h)
      | none => none
  match url? with
  | some u =>
    some { url := u
         , title := title
         , thumbnail := element.imgSrc.map (urljoin base_url)
         , duration := element.durationText
         , views := element.viewsText }
  | none => none

/-- The inner element loop of `scrape_page` (lines 82–86): scan a selector's
matched elements in order, append the first element that extracts to a
candidate with a url, then `break` out of the element loop. -/
def scanSelector (url : Url) : List Element → List VideoData
  | [] => []
  | elem :: rest =>
    match extract_video_data elem url with
    | some video_data => [video_data]
    | none => scanSelector url rest

/-- The selector loop of `scrape_page` (lines 80–86): every selector of
`video_selectors` is scanned in order; its contribution is appended to
`videos_on_page`. -/
def videos_on_page (url : Url) (selectorMatches : List (List Element)) : List VideoData :=
  (selectorMatches.map (scanSelector url)).flatten

/-- The dedup loop of `scrape_page` (lines 88–94), with the `seen_urls` set
modelled as the list of urls seen so far. -/
def dedupLoop (seen : List Url) : List VideoData → List VideoData
  | [] => []
  | video :: rest =>
    if video.url ∈ seen then dedupLoop seen rest
    else video :: dedupLoop (video.url :: seen) rest

/-- Per-page deduplication by url, preserving first-seen order (lines 88–94). -/
def dedupByUrl (videos : List VideoData) : List VideoData :=
  dedupLoop [] videos

/-- The mutable `self.progress` dict (lines 25–32); timestamps omitted. -/
structure Progress where
  status : String
  pages_scraped : Nat
  videos_found : Nat
  videos_downloaded : Nat
  errors : Nat
  current_url : Option Url
  last_error : Option String
  total_to_download : Option Nat
deriving DecidableEq, Repr

/-- The scraper's mutable state (`VideoScraper.__init__`, lines 18–41;
`output_dir`, `job_id` and the HTTP session are not modelled).  `trace` and
`fetches` are instrumentation: the progress snapshots emitted and the
`(url, depth)` pairs at which a fetch was dispatched. -/
structure ScraperState where
  base_url : Url
  visited_urls : List Url
  videos_found : List VideoData
  progress : Progress
  trace : List Progress
  fetches : List (Url × Nat)

/-- `VideoScraper.update_progress` (lines 43–52): merge the given field
updates, emit the snapshot (logged in `trace`); the `progress.json` write has
no effect on crawl state. -/
def update_progress (s : ScraperState) (f : Progress → Progress) : ScraperState :=
  let p := f s.progress
  { s with progress := p, trace := s.trace ++ [p] }

/-- `VideoScraper.__init__` (lines 18–32): fresh state for a run. -/
def mkScraper (base_url : Url) : ScraperState :=
  { base_url := base_url
  , visited_urls := []
  , videos_found := []
  , progress :=
      { status := "starting"
      , pages_scraped := 0
      , videos_found := 0
      , videos_downloaded := 0
      , errors := 0
      , current_url := none
      , last_error := none
      , total_to_download := none }
  , trace := []
  , fetches := [] }

/-- A fetched page, as the crawler sees it after parsing: the elements
matched by each entry of `video_selectors` (in the order of that list), and
every `<a href>` anchor on the page (line 108). -/
structure Page where
  selectorMatches : List (List Element)
  anchors : List Href

/-- The network: fetching a URL either yields a parsed page or raises
(timeout, non-2xx status via `raise_for_status`, connection error). -/
structure Web where
  fetch : Url → Except String Page

/-- Lines 56–64 of `scrape_page` (after the guard): mark the URL visited
(line 59, before the fetch), report `status=scraping_page, current_url=url`
(line 62), and dispatch the fetch (line 64, logged in `fetches`). -/
def visitAndLog (s : ScraperState) (url : Url) (depth : Nat) : ScraperState :=
  let s1 := { s with visited_urls := url :: s.visited_urls }
  let s2 := update_progress s1 (fun p =>
    { p with status := "scraping_page", current_url := some url })
  { s2 with fetches := s2.fetches ++ [(url, depth)] }

/-- The `except` handler of `scrape_page` (lines 120–124): increment the
error counter and record the message; nothing is re-raised. -/
def onFetchFail (s : ScraperState) (e : String) : ScraperState :=
  update_progress s (fun p =>
    { p with errors := p.errors + 1, last_error := some e })

/-- Lines 88–104 of `scrape_page`: dedup this page's candidates, extend
`videos_found`, and report the updated `pages_scraped` / `videos_found`
counters (`save_results` only writes a snapshot file). -/
def onFetchOk (s : ScraperState) (url : Url) (page : Page) : ScraperState :=
  let unique_videos := dedupByUrl (videos_on_page url page.selectorMatches)
  let s4 := { s with videos_found := s.videos_found ++ unique_videos }
  update_progress s4 (fun p =>
    { p with pages_scraped := p.pages_scraped + 1
           , videos_found := s4.videos_found.length })

/-- The link-following loop of `scrape_page` (lines 108–118), generic in the
recursive call: resolve each href against the page URL, follow it only when
its netloc equals the base URL's netloc (line 114) and no known non-page
extension occurs in the lowercased URL string (line 116); the politeness
delay does not change state. -/
def linkLoop (recur : ScraperState → Url → ScraperState) (url : Url)
    (anchors : List Href) (s : ScraperState) : ScraperState :=
  anchors.foldl (fun acc href =>
    let absolute_url := urljoin url href
    if absolute_url.netloc = acc.base_url.netloc then
      if anyExtIn absolute_url then acc
      else recur acc absolute_url
    else acc) s

/-- `VideoScraper.scrape_page` (lines 54–124), with explicit fuel for the
Python call stack.  The function is total: every exception raised inside the
`try` block is consumed by the `except` handler (`onFetchFail`), so no
exception propagates to the caller. -/
def scrape_page (web : Web) (fuel : Nat) (s : ScraperState) (url : Url)
    (depth : Nat) (max_depth : Nat) : ScraperState :=
  match fuel with
  | 0 => s
  | fuel + 1 =>
    if depth > max_depth ∨ url ∈ s.visited_urls then s
    else
      let s1 := visitAndLog s url depth
      match web.fetch url with
      | .error e => onFetchFail s1 e
      | .ok page =>
        let s2 := onFetchOk s1 url page
        if depth < max_depth then
          linkLoop (fun acc a => scrape_page web fuel acc a (depth + 1) max_depth)
            url page.anchors s2
        else s2

/-- `VideoScraper.download_videos` (lines 166–177): on an empty `videos_found`
report `no_videos_found` and return; otherwise report `downloading_videos`
with the total and hand the first 20 candidates (`self.videos_found[:20]`,
line 176) to the thread-pool fan-out.  The second component is the list of
candidates handed to the executor; the per-item download work is delegated to
the external extractor and not modelled. -/
def download_videos (s : ScraperState) : ScraperState × List VideoData :=
  if s.videos_found = [] then
    (update_progress s (fun p => { p with status := "no_videos_found" }), [])
  else
    let s1 := update_progress s (fun p =>
      { p with status := "downloading_videos"
             , total_to_download := some s.videos_found.length })
    (s1, s1.videos_found.take 20)

/-! ### `youtube_info.py` -/

/-- The fields of the info dict returned by the external extractor's
`extract_info`, as read by `get_video_info`; a `none` field models a missing
key (the `.get` default is then used).  Format records are opaque: only their
number matters. -/
structure YtInfo where
  title : Option String
  thumbnail : Option String
  duration : Option Nat
  uploader : Option String
  view_count : Option Nat
  like_count : Option Nat
  description : Option String
  formats : Option (List Unit)
deriving DecidableEq

/-- The two result shapes of `get_video_info`: the success dict (lines
18–30) and the failure dict with safe defaults (lines 32–38).  The `success`
boolean is the choice of constructor. -/
inductive InfoResult where
  | ok (title thumbnail : String) (duration : Nat) (uploader : String)
      (view_count like_count : Nat) (description : String) (formats : Nat)
      (best_audio_format best_video_format : String)
  | fail (error : String) (title thumbnail : String) (duration : Nat)
deriving DecidableEq

/-- `get_video_info` (youtube_info.py lines 6–38): the external
`extract_info` call is a parameter that either returns an info dict or
raises; the function itself is total — every exception is caught and mapped
to the failure shape. -/
def get_video_info (extract : Except String YtInfo) : InfoResult :=
  match extract with
  | .ok info =>
    .ok (info.title.getD "Unknown") (info.thumbnail.getD "")
      (info.duration.getD 0) (info.uploader.getD "")
      (info.view_count.getD 0) (info.like_count.getD 0)
      (strTake (info.description.getD "") 500) (info.formats.getD []).length
      "mp3" "mp4"
  | .error e => .fail e "YouTube Video" "" 0

/-! ### Observables and the crawl-extension relation -/

/-- Whether fetching the given logged `(url, depth)` pair fails on this web. -/
def fetchFails (web : Web) (p : Url × Nat) : Bool :=
  match web.fetch p.1 with
  | .error _ => true
  | .ok _ => false

/-- Number of failing fetch attempts in a fetch log. -/
def countFail (web : Web) (t : List (Url × Nat)) : Nat :=
  (t.filter (fetchFails web)).length

/-- Number of successful fetch attempts in a fetch log. -/
def countOk (web : Web) (t : List (Url × Nat)) : Nat :=
  (t.filter (fun p => ! fetchFails web p)).length

/-- The four CrawlState counters of `p` are each at most those of `q`. -/
def counterLe (p q : Progress) : Prop :=
  p.pages_scraped ≤ q.pages_scraped ∧ p.videos_found ≤ q.videos_found ∧
    p.videos_downloaded ≤ q.videos_downloaded ∧ p.errors ≤ q.errors

/-- The counters are non-decreasing along the snapshot list `tr`, starting
from snapshot `p`. -/
def monoTrace (p : Progress) : List Progress → Prop
  | [] => True
  | q :: rest => counterLe p q ∧ monoTrace q rest

/-- The last snapshot of `tr`, or `p` when `tr` is empty. -/
def lastOf (p : Progress) : List Progress → Progress
  | [] => p
  | q :: rest => lastOf q rest

/-- How a crawl step extends the scraper state: `CrawlRel web md s r` says `r` is
reachable from `s` by `scrape_page` activity with `max_depth = md`.  It
packages every run-level invariant the spec claims: the fetch log, the
results list and the emitted trace grow by appending; every new fetch is at
depth ≤ `md` and its URL ends up in the visited set; the visited set grows
by exactly one URL per fetch attempt; the error / page counters advance by
exactly the number of failing / succeeding new fetches; `videos_downloaded`
is untouched; and (provided the `videos_found` counter agreed with the
results list in `s`) the counters are non-decreasing across every emitted
snapshot. -/
def CrawlRel (web : Web) (md : Nat) (s r : ScraperState) : Prop :=
  r.base_url = s.base_url ∧
  (∃ t, r.fetches = s.fetches ++ t ∧
     r.visited_urls.length = s.visited_urls.length + t.length ∧
     (∀ p ∈ t, p.2 ≤ md ∧ p.1 ∈ r.visited_urls) ∧
     r.progress.errors = s.progress.errors + countFail web t ∧
     r.progress.pages_scraped = s.progress.pages_scraped + countOk web t) ∧
  (∀ u ∈ s.visited_urls, u ∈ r.visited_urls) ∧
  (∃ extras, r.videos_found = s.videos_found ++ extras) ∧
  (∃ tr, r.trace = s.trace ++ tr ∧ r.progress = lastOf s.progress tr ∧
     (s.progress.videos_found = s.videos_found.length →
        monoTrace s.progress tr ∧
          r.progress.videos_found = r.videos_found.length)) ∧
  r.progress.videos_downloaded = s.progress.videos_downloaded

theorem counterLe_refl (p : Progress) : counterLe p p :=
  ⟨le_refl _, le_refl _, le_refl _, le_refl _⟩

theorem counterLe_trans {p q r : Progress} (h1 : counterLe p q)
    (h2 : counterLe q r) : counterLe p r :=
  ⟨h1.1.trans h2.1, h1.2.1.trans h2.2.1, h1.2.2.1.trans h2.2.2.1,
    h1.2.2.2.trans h2.2.2.2⟩

theorem lastOf_append (p : Progress) (l1 l2 : List Progress) :
    lastOf p (l1 ++ l2) = lastOf (lastOf p l1) l2 := by
  induction l1 generalizing p with
  | nil => rfl
  | cons q rest ih => simpa [lastOf] using ih q

theorem monoTrace_append {p : Progress} {l1 l2 : List Progress}
    (h1 : monoTrace p l1) (h2 : monoTrace (lastOf p l1) l2) :
    monoTrace p (l1 ++ l2) := by
  induction l1 generalizing p with
  | nil => simpa [monoTrace, lastOf] using h2
  | cons q rest ih =>
    exact ⟨h1.1, ih h1.2 (by simpa [lastOf] using h2)⟩

theorem countFail_append (web : Web) (t1 t2 : List (Url × Nat)) :
    countFail web (t1 ++ t2) = countFail web t1 + countFail web t2 := by
  simp [countFail, List.filter_append]

theorem countOk_append (web : Web) (t1 t2 : List (Url × Nat)) :
    countOk web (t1 ++ t2) = countOk web t1 + countOk web t2 := by
  simp [countOk, List.filter_append]

theorem countOk_le_length (web : Web) (t : List (Url × Nat)) :
    countOk web t ≤ t.length := by
  simpa [countOk] using List.length_filter_le (fun p => ! fetchFails web p) t

theorem rel_refl (web : Web) (md : Nat) (s : ScraperState) : CrawlRel web md s s :=
  ⟨rfl,
   ⟨[], by simp, by simp, by simp, by simp [countFail], by simp [countOk]⟩,
   fun _ h => h,
   ⟨[], by simp⟩,
   ⟨[], by simp, rfl, fun h => ⟨trivial, by simpa [lastOf] using h⟩⟩,
   rfl⟩

theorem rel_trans {web : Web} {md : Nat} {s m r : ScraperState}
    (h1 : CrawlRel web md s m) (h2 : CrawlRel web md m r) : CrawlRel web md s r := by
  obtain ⟨hb1, ⟨t1, hf1, hv1, hp1, he1, hs1⟩, hsub1, ⟨x1, hx1⟩,
    ⟨tr1, htr1, hl1, hm1⟩, hd1⟩ := h1
  obtain ⟨hb2, ⟨t2, hf2, hv2, hp2, he2, hs2⟩, hsub2, ⟨x2, hx2⟩,
    ⟨tr2, htr2, hl2, hm2⟩, hd2⟩ := h2
  refine ⟨hb2.trans hb1,
    ⟨t1 ++ t2, by rw [hf2, hf1, List.append_assoc], ?_, ?_, ?_, ?_⟩,
    fun u hu => hsub2 u (hsub1 u hu),
    ⟨x1 ++ x2, by rw [hx2, hx1, List.append_assoc]⟩,
    ⟨tr1 ++ tr2, by rw [htr2, htr1, List.append_assoc], ?_, ?_⟩,
    hd2.trans hd1⟩
  · rw [hv2, hv1, List.length_append]; omega
  · intro p hp
    rcases List.mem_append.mp hp with h | h
    · exact ⟨(hp1 p h).1, hsub2 _ (hp1 p h).2⟩
    · exact hp2 p h
  · rw [he2, he1, countFail_append web t1 t2]; omega
  · rw [hs2, hs1, countOk_append web t1 t2]; omega
  · rw [hl2, hl1, lastOf_append]
  · intro hinv
    obtain ⟨hmono1, hcnt1⟩ := hm1 hinv
    obtain ⟨hmono2, hcnt2⟩ := hm2 hcnt1
    refine ⟨monoTrace_append hmono1 ?_, hcnt2⟩
    rwa [← hl1]

/-- Folding a `CrawlRel`-respecting step over any list stays in `CrawlRel`. -/
theorem rel_foldl {α : Type} (web : Web) (md : Nat)
    (g : ScraperState → α → ScraperState)
    (hg : ∀ s a, CrawlRel web md s (g s a)) :
    ∀ (l : List α) (s : ScraperState), CrawlRel web md s (l.foldl g s)
  | [], s => rel_refl web md s
  | a :: l, s => rel_trans (hg s a) (rel_foldl web md g hg l (g s a))

theorem rel_fail_step (web : Web) (md : Nat) (s : ScraperState) (url : Url)
    (depth : Nat) (e : String) (hd : depth ≤ md)
    (hfetch : web.fetch url = .error e) :
    CrawlRel web md s (onFetchFail (visitAndLog s url depth) e) := by
  refine ⟨rfl, ⟨[(url, depth)], ?_, ?_, ?_, ?_, ?_⟩, ?_, ⟨[], ?_⟩,
    ⟨[({ s.progress with status := "scraping_page", current_url := some url } : Progress),
      ({ s.progress with
          status := "scraping_page"
          current_url := some url
          errors := s.progress.errors + 1
          last_error := some e } : Progress)], ?_, ?_, ?_⟩, ?_⟩
  · simp [onFetchFail, visitAndLog, update_progress]
  · simp [onFetchFail, visitAndLog, update_progress]
  · intro p hp
    simp only [List.mem_singleton] at hp
    subst hp
    simp [onFetchFail, visitAndLog, update_progress, hd]
  · simp [onFetchFail, visitAndLog, update_progress, countFail, fetchFails, hfetch]
  · simp [onFetchFail, visitAndLog, update_progress, countOk, fetchFails, hfetch]
  · intro u hu
    simp [onFetchFail, visitAndLog, update_progress, hu]
  · simp [onFetchFail, visitAndLog, update_progress]
  · simp [onFetchFail, visitAndLog, update_progress]
  · simp [onFetchFail, visitAndLog, update_progress, lastOf]
  · intro hinv
    refine ⟨⟨⟨le_refl _, le_refl _, le_refl _, le_refl _⟩,
      ⟨le_refl _, le_refl _, le_refl _, Nat.le_succ _⟩, trivial⟩, ?_⟩
    simp [onFetchFail, visitAndLog, update_progress, hinv]
  · simp [onFetchFail, visitAndLog, update_progress]

theorem rel_ok_step (web : Web) (md : Nat) (s : ScraperState) (url : Url)
    (depth : Nat) (page : Page) (hd : depth ≤ md)
    (hfetch : web.fetch url = .ok page) :
    CrawlRel web md s (onFetchOk (visitAndLog s url depth) url page) := by
  refine ⟨rfl, ⟨[(url, depth)], ?_, ?_, ?_, ?_, ?_⟩, ?_,
    ⟨dedupByUrl (videos_on_page url page.selectorMatches), ?_⟩,
    ⟨[({ s.progress with status := "scraping_page", current_url := some url } : Progress),
      ({ s.progress with
          status := "scraping_page"
          current_url := some url
          pages_scraped := s.progress.pages_scraped + 1
          videos_found :=
            (s.videos_found ++ dedupByUrl (videos_on_page url page.selectorMatches)).length }
        : Progress)], ?_, ?_, ?_⟩, ?_⟩
  · simp [onFetchOk, visitAndLog, update_progress]
  · simp [onFetchOk, visitAndLog, update_progress]
  · intro p hp
    simp only [List.mem_singleton] at hp
    subst hp
    simp [onFetchOk, visitAndLog, update_progress, hd]
  · simp [onFetchOk, visitAndLog, update_progress, countFail, fetchFails, hfetch]
  · simp [onFetchOk, visitAndLog, update_progress, countOk, fetchFails, hfetch]
  · intro u hu
    simp [onFetchOk, visitAndLog, update_progress, hu]
  · simp [onFetchOk, visitAndLog, update_progress]
  · simp [onFetchOk, visitAndLog, update_progress]
  · simp [onFetchOk, visitAndLog, update_progress, lastOf]
  · intro hinv
    refine ⟨⟨⟨le_refl _, le_refl _, le_refl _, le_refl _⟩,
      ⟨Nat.le_succ _, ?_, le_refl _, le_refl _⟩, trivial⟩, ?_⟩
    · simp [hinv]
    · simp [onFetchOk, visitAndLog, update_progress]
  · simp [onFetchOk, visitAndLog, update_progress]

theorem scrape_page_rel (web : Web) (md : Nat) :
    ∀ (fuel : Nat) (s : ScraperState) (url : Url) (depth : Nat),
    CrawlRel web md s (scrape_page web fuel s url depth md) := by
  intro fuel
  induction fuel with
  | zero => intro s url depth; exact rel_refl web md s
  | succ fuel ih =>
    intro s url depth
    by_cases hguard : depth > md ∨ url ∈ s.visited_urls
    · have heq : scrape_page web (fuel + 1) s url depth md = s := by
        rw [scrape_page]
        simp [hguard]
      rw [heq]
      exact rel_refl web md s
    · have hd : depth ≤ md := by
        rcases not_or.mp hguard with ⟨h1, _⟩
        exact Nat.le_of_not_lt h1
      cases hfetch : web.fetch url with
      | error e =>
        have heq : scrape_page web (fuel + 1) s url depth md =
            onFetchFail (visitAndLog s url depth) e := by
          rw [scrape_page]
          simp [hguard, hfetch]
        rw [heq]
        exact rel_fail_step web md s url depth e hd hfetch
      | ok page =>
        by_cases hdep : depth < md
        · have heq : scrape_page web (fuel + 1) s url depth md =
              linkLoop (fun acc a => scrape_page web fuel acc a (depth + 1) md)
                url page.anchors (onFetchOk (visitAndLog s url depth) url page) := by
            rw [scrape_page]
            simp [hguard, hfetch, hdep]
          rw [heq]
          refine rel_trans (rel_ok_step web md s url depth page hd hfetch) ?_
          simp only [linkLoop]
          apply rel_foldl
          intro s' a
          dsimp only
          by_cases h1 : (urljoin url a).netloc = s'.base_url.netloc
          · by_cases h2 : anyExtIn (urljoin url a)
            · simp only [h1, if_pos, if_true, h2]
              exact rel_refl web md s'
            · simp only [h1, if_pos, if_true, h2, if_false, Bool.false_eq_true]
              exact ih s' (urljoin url a) (depth + 1)
          · simp only [if_neg h1]
            exact rel_refl web md s'
        · have heq : scrape_page web (fuel + 1) s url depth md =
              onFetchOk (visitAndLog s url depth) url page := by
            rw [scrape_page]
            simp [hguard, hfetch, hdep]
          rw [heq]
          exact rel_ok_step web md s url depth page hd hfetch

/-! ### Properties of the per-page pipeline -/

theorem dedupLoop_nodup :
    ∀ (l : List VideoData) (seen : List Url),
      ((dedupLoop seen l).map (fun v => v.url)).Nodup ∧
        ∀ v ∈ dedupLoop seen l, v.url ∉ seen
  | [], seen => by simp [dedupLoop]
  | video :: rest, seen => by
    by_cases hmem : video.url ∈ seen
    · have ih := dedupLoop_nodup rest seen
      refine ⟨?_, ?_⟩
      · simpa [dedupLoop, hmem] using ih.1
      · intro v hv
        rw [dedupLoop, if_pos hmem] at hv
        exact ih.2 v hv
    · have ih := dedupLoop_nodup rest (video.url :: seen)
      rw [dedupLoop, if_neg hmem]
      refine ⟨?_, ?_⟩
      · rw [List.map_cons, List.nodup_cons]
        refine ⟨?_, ih.1⟩
        intro hcon
        rcases List.mem_map.mp hcon with ⟨v, hv, hurl⟩
        exact (ih.2 v hv) (by rw [hurl]; exact List.mem_cons_self _ _)
      · intro v hv
        rcases List.mem_cons.mp hv with h | h
        · rw [h]; exact hmem
        · exact fun hc => (ih.2 v h) (List.mem_cons_of_mem _ hc)

theorem scanSelector_length_le (url : Url) :
    ∀ elems : List Element, (scanSelector url elems).length ≤ 1
  | [] => by simp [scanSelector]
  | elem :: rest => by
    cases hx : extract_video_data elem url with
    | some vd => simp [scanSelector, hx]
    | none => simpa [scanSelector, hx] using scanSelector_length_le url rest

theorem videos_on_page_length_le (url : Url) :
    ∀ sms : List (List Element), (videos_on_page url sms).length ≤ sms.length
  | [] => by simp [videos_on_page]
  | sel :: rest => by
    have h1 := scanSelector_length_le url sel
    have h2 := videos_on_page_length_le url rest
    simp only [videos_on_page, List.map_cons, List.flatten_cons, List.length_append,
      List.length_cons]
    simp only [videos_on_page] at h2
    omega

/-! ### Guard and failure unfoldings of `scrape_page` -/

theorem scrape_page_guard (web : Web) (fuel : Nat) (s : ScraperState) (url : Url)
    (depth max_depth : Nat) (h : depth > max_depth ∨ url ∈ s.visited_urls) :
    scrape_page web fuel s url depth max_depth = s := by
  cases fuel with
  | zero => rfl
  | succ fuel => rw [scrape_page]; simp [h]

theorem scrape_page_fail_eq (web : Web) (fuel : Nat) (s : ScraperState) (url : Url)
    (depth max_depth : Nat) (e : String)
    (hguard : ¬(depth > max_depth ∨ url ∈ s.visited_urls))
    (hfetch : web.fetch url = .error e) :
    scrape_page web (fuel + 1) s url depth max_depth =
      onFetchFail (visitAndLog s url depth) e := by
  rw [scrape_page]; simp [hguard, hfetch]

/-! ### The link filter, named and fused with the loop -/

/-- The two conditions of lines 114 and 116 that a resolved link must pass to
be recursed into. -/
def followsLink (base a : Url) : Bool :=
  decide (a.netloc = base.netloc) && ! anyExtIn a

/-- The resolved anchors of a page surviving the same-domain test (line 114)
and the extension test (line 116), in page order. -/
def links_followed (base url : Url) (anchors : List Href) : List Url :=
  (anchors.map (urljoin url)).filter (followsLink base)

theorem links_followed_mem (base url : Url) (anchors : List Href) (a : Url) :
    a ∈ links_followed base url anchors ↔
      (∃ h ∈ anchors, urljoin url h = a) ∧
        a.netloc = base.netloc ∧ anyExtIn a = false := by
  simp only [links_followed, List.mem_filter, List.mem_map, followsLink,
    Bool.and_eq_true, decide_eq_true_eq, Bool.not_eq_true']

theorem linkLoop_eq_foldl (recur : ScraperState → Url → ScraperState)
    (hb : ∀ acc a, (recur acc a).base_url = acc.base_url) :
    ∀ (anchors : List Href) (url : Url) (s : ScraperState),
      linkLoop recur url anchors s =
        (links_followed s.base_url url anchors).foldl recur s
  | [], url, s => by simp [linkLoop, links_followed]
  | h :: rest, url, s => by
    simp only [linkLoop, List.foldl_cons]
    by_cases h1 : (urljoin url h).netloc = s.base_url.netloc
    · by_cases h2 : anyExtIn (urljoin url h)
      · rw [if_pos h1, if_pos h2]
        have hcons : links_followed s.base_url url (h :: rest) =
            links_followed s.base_url url rest := by
          simp [links_followed, List.filter_cons, followsLink, h1, h2]
        rw [hcons]
        simpa [linkLoop] using linkLoop_eq_foldl recur hb rest url s
      · rw [if_pos h1, if_neg h2]
        have hcons : links_followed s.base_url url (h :: rest) =
            urljoin url h :: links_followed s.base_url url rest := by
          simp [links_followed, List.filter_cons, followsLink, h1, h2]
        rw [hcons, List.foldl_cons]
        have ih := linkLoop_eq_foldl recur hb rest url (recur s (urljoin url h))
        rw [hb s (urljoin url h)] at ih
        simpa [linkLoop] using ih
    · rw [if_neg h1]
      have hcons : links_followed s.base_url url (h :: rest) =
          links_followed s.base_url url rest := by
        simp [links_followed, List.filter_cons, followsLink, h1]
      rw [hcons]
      simpa [linkLoop] using linkLoop_eq_foldl recur hb rest url s

theorem scrape_page_base_url (web : Web) (fuel : Nat) (s : ScraperState)
    (url : Url) (depth max_depth : Nat) :
    (scrape_page web fuel s url depth max_depth).base_url = s.base_url :=
  (scrape_page_rel web max_depth fuel s url depth).1

/-! ### Concrete fixtures used by witnesses and counterexamples -/

/-- The base URL `http://example.com/` of the worked scenarios. -/
def exCom : Url := { scheme := "http", netloc := "example.com", path := "/" }

/-- An element whose first anchor child points at `/v/1`. -/
def vidElemA : Element :=
  { titleText := some "T1", linkHref := some (.relative "/v/1"),
    selfAnchorHref := none, imgSrc := none, durationText := none, viewsText := none }

/-- An element whose first anchor child points at `/v/2`. -/
def vidElemB : Element :=
  { titleText := some "T2", linkHref := some (.relative "/v/2"),
    selfAnchorHref := none, imgSrc := none, durationText := none, viewsText := none }

/-- What `extract_video_data` yields for `vidElemA` against `exCom`. -/
def cexVd1 : VideoData :=
  { url := { scheme := "http", netloc := "example.com", path := "/v/1" },
    title := some "T1", thumbnail := none, duration := none, views := none }

/-- What `extract_video_data` yields for `vidElemB` against `exCom`. -/
def cexVd2 : VideoData :=
  { url := { scheme := "http", netloc := "example.com", path := "/v/2" },
    title := some "T2", thumbnail := none, duration := none, views := none }

/-- A page whose first selector matches `vidElemA` (video url `/v/1`). -/
def pageA : Page := { selectorMatches := [[vidElemA]], anchors := [] }

/-- A root page with no video elements linking to `/a` and `/b`. -/
def rootPage : Page :=
  { selectorMatches := [], anchors := [.relative "/a", .relative "/b"] }

/-- A site where `/a` and `/b` both carry the same video url `/v/1`. -/
def cexWeb : Web :=
  ⟨fun u =>
    if u.path = "/a" ∨ u.path = "/b" then .ok pageA
    else if u.path = "/" then .ok rootPage
    else .error "HTTP 404"⟩

/-- Selector matches where the first and the second selector each yield a
candidate. -/
def cexSms : List (List Element) := [[vidElemA], [vidElemB]]

/-- Five selector-match lists, two of them yielding a candidate. -/
def cexSms5 : List (List Element) := [[vidElemA], [], [], [], [vidElemB]]

/-- A same-domain URL whose lowercased path ends in `.html`, but whose URL
string contains `.jpg` as a substring. -/
def cexUrl3 : Url := { scheme := "http", netloc := "example.com", path := "/x.jpg.html" }

/-- A site whose root links to `/x.jpg.html` (same domain, non-media path
suffix) and to `/ok`. -/
def web3 : Web :=
  ⟨fun u =>
    if u.path = "/" then
      .ok { selectorMatches := [], anchors := [.relative "/x.jpg.html", .relative "/ok"] }
    else if u.path = "/ok" then .ok { selectorMatches := [], anchors := [] }
    else .error "HTTP 404"⟩

/-- A network where every fetch times out. -/
def failWeb : Web := ⟨fun _ => .error "timeout"⟩

/-- A concrete info dict for the `get_video_info` witness. -/
def cexInfo : YtInfo :=
  { title := some "t", thumbnail := none, duration := some 7, uploader := none,
    view_count := none, like_count := some 3, description := some "d",
    formats := some [(), ()] }

theorem strTake_length_le (s : String) (n : Nat) : (strTake s n).length ≤ n := by
  simp only [strTake, String.length, List.length_take]
  exact Nat.min_le_left _ _

/-! ### Spec-side definitions, for refinement comparison only -/

/-- Modelled from the spec's words (§4.2): "Once a heuristic yields any
candidates for an element set, later heuristics are not additionally applied
to that same page pass" — the first selector whose scan is non-empty wins
the page pass. -/
def specVideosOnPage (url : Url) : List (List Element) → List VideoData
  | [] => []
  | sel :: rest =>
    match scanSelector url sel with
    | [] => specVideosOnPage url rest
    | v :: vs => v :: vs

/-- Modelled from the spec's words (§4.4 rule 5, §8): "drop targets whose
lowercased path ends in a known non-page extension" — a suffix test on the
lowercased path. -/
def specDropsLink (absolute_url : Url) : Bool :=
  non_page_exts.any (fun ext => ext.data.isSuffixOf (strLower absolute_url.path).data)

/-! ### C1 -/

/-- C1 counterexample: a run over `cexWeb` (pages `/a` and `/b` both carrying
video url `/v/1`) accumulates the same url twice in `videos_found`: the code
deduplicates only within a single page pass (lines 88–94), not across pages. -/
theorem C1_counterexample :
    ((scrape_page cexWeb 4 (mkScraper exCom) exCom 0 1).videos_found.map
        (fun v => v.url)).Nodup = False := by
  decide

/-- C1 (amended): within each single page pass, the batch of candidates
appended to `videos_found` (the per-page dedup output) contains no two
entries with equal url; equal urls may recur across different pages. -/
theorem C1_thm (url : Url) (sms : List (List Element)) :
    ((dedupByUrl (videos_on_page url sms)).map (fun v => v.url)).Nodup :=
  (dedupLoop_nodup (videos_on_page url sms) []).1

/-! ### C2 -/

/-- C2 counterexample: on a page where the first selector already yields a
candidate, the second selector still contributes one — the `break` at line 86
only ends that selector's element scan, it does not stop the selector loop,
so the output differs from the spec's first-match-per-page-pass reading. -/
theorem C2_counterexample :
    scanSelector exCom [vidElemA] ≠ [] ∧
    videos_on_page exCom cexSms = [cexVd1, cexVd2] ∧
    videos_on_page exCom cexSms ≠ specVideosOnPage exCom cexSms := by
  decide

/-- C2 (amended): the heuristic selectors are applied in order and every
selector's yield reaches the page output, whether or not an earlier selector
already yielded a candidate. -/
theorem C2_thm (url : Url) (sms : List (List Element)) (i : Nat)
    (h : i < sms.length) (vd : VideoData)
    (hvd : vd ∈ scanSelector url (sms.get ⟨i, h⟩)) :
    vd ∈ videos_on_page url sms := by
  have hmem : scanSelector url (sms.get ⟨i, h⟩) ∈ sms.map (scanSelector url) :=
    List.mem_map_of_mem _ (sms.get_mem i h)
  exact List.mem_flatten.mpr ⟨_, hmem, hvd⟩

/-- Witness for C2: the second selector's candidate is in the page output
even though the first selector yielded one. -/
theorem C2_witness : cexVd2 ∈ videos_on_page exCom cexSms :=
  C2_thm exCom cexSms 1 (by decide) cexVd2 (by decide)

/-! ### C3 -/

/-- C3 counterexample: `/x.jpg.html` is same-domain and its lowercased path
ends in `.html`, not in a listed media extension, so by the claim it should
be recursed into; the code's substring test (line 116) sees `.jpg` inside the
URL string and drops it: the run over `web3` (whose root links to it) never
fetches it. -/
theorem C3_counterexample :
    cexUrl3.netloc = exCom.netloc ∧ specDropsLink cexUrl3 = false ∧
    anyExtIn cexUrl3 = true ∧
    (scrape_page web3 4 (mkScraper exCom) exCom 0 1).fetches.map
        (fun p => p.1.path) = ["/", "/ok"] := by
  decide

/-- C3 (amended): during link discovery on a page, a resolved anchor target
is recursed into exactly when its netloc equals the run's base URL netloc
and no known non-page extension occurs as a substring anywhere in the
lowercased URL string (not only as a path suffix): the loop over a page's
anchors equals folding the recursive call over exactly the surviving
targets. -/
theorem C3_thm (web : Web) (fuel max_depth depth : Nat) (s : ScraperState)
    (url base a : Url) (anchors : List Href) :
    (a ∈ links_followed base url anchors ↔
       (∃ h ∈ anchors, urljoin url h = a) ∧
         a.netloc = base.netloc ∧ anyExtIn a = false) ∧
    linkLoop (fun acc u2 => scrape_page web fuel acc u2 (depth + 1) max_depth)
        url anchors s =
      (links_followed s.base_url url anchors).foldl
        (fun acc u2 => scrape_page web fuel acc u2 (depth + 1) max_depth) s :=
  ⟨links_followed_mem base url anchors a,
   linkLoop_eq_foldl _
     (fun acc u2 => scrape_page_base_url web fuel acc u2 (depth + 1) max_depth)
     anchors url s⟩

/-! ### C4 -/

/-- C4: in a run started at the root with depth 0, every dispatched fetch is
at depth ≤ `max_depth`, and `scrape_page` returns its state unchanged — in
particular without fetching — whenever `depth > max_depth`. -/
theorem C4_thm (web : Web) (fuel : Nat) (base url : Url) (md : Nat) :
    (∀ p ∈ (scrape_page web fuel (mkScraper base) url 0 md).fetches, p.2 ≤ md) ∧
    (∀ (s : ScraperState) (u : Url) (d : Nat), d > md →
       scrape_page web fuel s u d md = s) := by
  constructor
  · obtain ⟨-, ⟨t, hf, -, hp, -, -⟩, -⟩ :=
      scrape_page_rel web md fuel (mkScraper base) url 0
    intro p hmem
    rw [hf] at hmem
    exact (hp p (by simpa [mkScraper] using hmem)).1
  · intro s u d hd
    exact scrape_page_guard web fuel s u d md (Or.inl hd)

/-- Witness for C4: in the concrete run over `cexWeb` the root fetch is at
depth 0 ≤ 1, and calling `scrape_page` at depth 2 with `max_depth = 1`
returns the state unchanged. -/
theorem C4_witness :
    ((exCom, 0) : Url × Nat).2 ≤ 1 ∧
      scrape_page cexWeb 4 (mkScraper exCom) exCom 2 1 = mkScraper exCom :=
  ⟨(C4_thm cexWeb 4 exCom exCom 1).1 (exCom, 0) (by decide),
   (C4_thm cexWeb 4 exCom exCom 1).2 (mkScraper exCom) exCom 2 (by decide)⟩

/-! ### C5 -/

/-- C5: failed fetches never abort the crawl.  Globally, across any
`scrape_page` activity the errors counter advances by exactly the number of
failing fetch attempts in the new fetch log (each failure contributes one,
and traversal of the remaining log entries continues).  Locally, when the
fetch of a fresh in-bound URL fails, the errors counter is incremented by
one, the message is recorded in `last_error` via the progress reporter, and
only that branch is abandoned: no page counted, no candidates appended, no
further fetch dispatched from it; `scrape_page` being a total function, no
exception propagates to the caller. -/
theorem C5_thm (web : Web) (fuel : Nat) (s : ScraperState) (url : Url)
    (depth max_depth : Nat) :
    (∃ t, (scrape_page web fuel s url depth max_depth).fetches = s.fetches ++ t ∧
       (scrape_page web fuel s url depth max_depth).progress.errors =
         s.progress.errors + countFail web t) ∧
    (∀ e, web.fetch url = .error e → depth ≤ max_depth →
       url ∉ s.visited_urls → 0 < fuel →
       (scrape_page web fuel s url depth max_depth).progress.errors =
           s.progress.errors + 1 ∧
         (scrape_page web fuel s url depth max_depth).progress.last_error = some e ∧
         (scrape_page web fuel s url depth max_depth).progress.pages_scraped =
           s.progress.pages_scraped ∧
         (scrape_page web fuel s url depth max_depth).videos_found =
           s.videos_found ∧
         (scrape_page web fuel s url depth max_depth).visited_urls =
           url :: s.visited_urls ∧
         (scrape_page web fuel s url depth max_depth).fetches =
           s.fetches ++ [(url, depth)]) := by
  constructor
  · obtain ⟨-, ⟨t, hf, -, -, he, -⟩, -⟩ :=
      scrape_page_rel web max_depth fuel s url depth
    exact ⟨t, hf, he⟩
  · intro e hfetch hd hnv hfuel
    cases fuel with
    | zero => exact absurd hfuel (by simp)
    | succ fuel =>
      have hguard : ¬(depth > max_depth ∨ url ∈ s.visited_urls) := by
        push_neg
        exact ⟨hd, hnv⟩
      rw [scrape_page_fail_eq web fuel s url depth max_depth e hguard hfetch]
      simp [onFetchFail, visitAndLog, update_progress]

/-- Witness for C5: on a network where every fetch times out, the root
fetch failure increments the error counter once, records the message, and
leaves results and traversal state otherwise intact. -/
theorem C5_witness :
    (scrape_page failWeb 3 (mkScraper exCom) exCom 0 2).progress.errors =
        (mkScraper exCom).progress.errors + 1 ∧
      (scrape_page failWeb 3 (mkScraper exCom) exCom 0 2).progress.last_error =
        some "timeout" ∧
      (scrape_page failWeb 3 (mkScraper exCom) exCom 0 2).progress.pages_scraped =
        (mkScraper exCom).progress.pages_scraped ∧
      (scrape_page failWeb 3 (mkScraper exCom) exCom 0 2).videos_found =
        (mkScraper exCom).videos_found ∧
      (scrape_page failWeb 3 (mkScraper exCom) exCom 0 2).visited_urls =
        exCom :: (mkScraper exCom).visited_urls ∧
      (scrape_page failWeb 3 (mkScraper exCom) exCom 0 2).fetches =
        (mkScraper exCom).fetches ++ [(exCom, 0)] :=
  (C5_thm failWeb 3 (mkScraper exCom) exCom 0 2).2 "timeout" rfl (by decide)
    (by decide) (by decide)

/-! ### C6 -/

/-- C6: every URL whose fetch was dispatched is in the visited set (it is
added before the fetch), the visited set only grows across any crawl
activity, and the visited set is at least as large as the `pages_scraped`
counter. -/
theorem C6_thm (web : Web) (fuel : Nat) (base url : Url) (md : Nat) :
    (∀ p ∈ (scrape_page web fuel (mkScraper base) url 0 md).fetches,
       p.1 ∈ (scrape_page web fuel (mkScraper base) url 0 md).visited_urls) ∧
    (scrape_page web fuel (mkScraper base) url 0 md).progress.pages_scraped ≤
      (scrape_page web fuel (mkScraper base) url 0 md).visited_urls.length ∧
    (∀ (s : ScraperState) (u : Url) (d f2 : Nat), ∀ v ∈ s.visited_urls,
       v ∈ (scrape_page web f2 s u d md).visited_urls) := by
  refine ⟨?_, ?_, ?_⟩
  · obtain ⟨-, ⟨t, hf, -, hp, -, -⟩, -⟩ :=
      scrape_page_rel web md fuel (mkScraper base) url 0
    intro p hmem
    rw [hf] at hmem
    exact (hp p (by simpa [mkScraper] using hmem)).2
  · obtain ⟨-, ⟨t, -, hv, -, -, hs⟩, -⟩ :=
      scrape_page_rel web md fuel (mkScraper base) url 0
    rw [hs, hv]
    simp only [mkScraper, List.length_nil]
    simpa using countOk_le_length web t
  · intro s u d f2 v hv
    obtain ⟨-, -, hsub, -⟩ := scrape_page_rel web md f2 s u d
    exact hsub v hv

/-- Witness for C6: in the concrete run over `cexWeb`, the root URL (whose
fetch was dispatched) is in the final visited set, and the page counter is
bounded by the visited-set size. -/
theorem C6_witness :
    exCom ∈ (scrape_page cexWeb 4 (mkScraper exCom) exCom 0 1).visited_urls ∧
      (scrape_page cexWeb 4 (mkScraper exCom) exCom 0 1).progress.pages_scraped ≤
        (scrape_page cexWeb 4 (mkScraper exCom) exCom 0 1).visited_urls.length :=
  ⟨(C6_thm cexWeb 4 exCom exCom 1).1 (exCom, 0) (by decide),
   (C6_thm cexWeb 4 exCom exCom 1).2.1⟩

/-! ### C7 -/

/-- C7: across every snapshot emitted through the progress reporter during a
run (the crawl and the optional download phase), the four CrawlState
counters are monotonically non-decreasing. -/
theorem C7_thm (web : Web) (fuel : Nat) (base url : Url) (md : Nat) :
    monoTrace (mkScraper base).progress
        (scrape_page web fuel (mkScraper base) url 0 md).trace ∧
    monoTrace (mkScraper base).progress
        ((download_videos (scrape_page web fuel (mkScraper base) url 0 md)).1).trace := by
  obtain ⟨-, -, -, -, ⟨tr, htr, hl, hm⟩, -⟩ :=
    scrape_page_rel web md fuel (mkScraper base) url 0
  have hinv : (mkScraper base).progress.videos_found =
      (mkScraper base).videos_found.length := rfl
  obtain ⟨hmono, -⟩ := hm hinv
  have htr0 : (scrape_page web fuel (mkScraper base) url 0 md).trace = tr := by
    simpa [mkScraper] using htr
  refine ⟨by rw [htr0]; exact hmono, ?_⟩
  by_cases hempty : (scrape_page web fuel (mkScraper base) url 0 md).videos_found = []
  · have hdl : ((download_videos (scrape_page web fuel (mkScraper base) url 0 md)).1).trace =
        tr ++ [({ (scrape_page web fuel (mkScraper base) url 0 md).progress with
                  status := "no_videos_found" } : Progress)] := by
      simp [download_videos, hempty, update_progress, htr0]
    rw [hdl]
    refine monoTrace_append hmono ?_
    rw [← hl]
    exact ⟨⟨le_refl _, le_refl _, le_refl _, le_refl _⟩, trivial⟩
  · have hdl : ((download_videos (scrape_page web fuel (mkScraper base) url 0 md)).1).trace =
        tr ++ [({ (scrape_page web fuel (mkScraper base) url 0 md).progress with
                  status := "downloading_videos"
                  total_to_download :=
                    some (scrape_page web fuel (mkScraper base) url 0 md).videos_found.length }
                : Progress)] := by
      simp [download_videos, hempty, update_progress, htr0]
    rw [hdl]
    refine monoTrace_append hmono ?_
    rw [← hl]
    exact ⟨⟨le_refl _, le_refl _, le_refl _, le_refl _⟩, trivial⟩

/-! ### C8 -/

/-- C8: invoking the download phase on an empty `videos_found` reports
`no_videos_found`, hands nothing to the fan-out and leaves
`videos_downloaded` unchanged (0 after any run from a fresh state); on a
non-empty `videos_found` it reports `downloading_videos` with the total
count and hands exactly the first 20 candidates, in discovery order, to the
fan-out. -/
theorem C8_thm :
    (∀ s : ScraperState,
      (s.videos_found = [] →
        (download_videos s).1.progress.status = "no_videos_found" ∧
          (download_videos s).2 = [] ∧
          (download_videos s).1.progress.videos_downloaded =
            s.progress.videos_downloaded) ∧
      (s.videos_found ≠ [] →
        (download_videos s).1.progress.status = "downloading_videos" ∧
          (download_videos s).1.progress.total_to_download =
            some s.videos_found.length ∧
          (download_videos s).2 = s.videos_found.take 20 ∧
          (download_videos s).2.length ≤ 20)) ∧
    (∀ (web : Web) (fuel : Nat) (base url : Url) (md : Nat),
      (download_videos
          (scrape_page web fuel (mkScraper base) url 0 md)).1.progress.videos_downloaded
        = 0) := by
  constructor
  · intro s
    constructor
    · intro h
      simp [download_videos, h, update_progress]
    · intro h
      refine ⟨?_, ?_, ?_, ?_⟩
      · simp [download_videos, h, update_progress]
      · simp [download_videos, h, update_progress]
      · simp [download_videos, h, update_progress]
      · rw [download_videos, if_neg h]
        simp only [update_progress, List.length_take]
        omega
  · intro web fuel base url md
    obtain ⟨-, -, -, -, -, hdown⟩ :=
      scrape_page_rel web md fuel (mkScraper base) url 0
    have h0 : (scrape_page web fuel (mkScraper base) url 0 md).progress.videos_downloaded = 0 := by
      rw [hdown]; rfl
    by_cases hempty : (scrape_page web fuel (mkScraper base) url 0 md).videos_found = []
    · simpa [download_videos, hempty, update_progress] using h0
    · simpa [download_videos, hempty, update_progress] using h0

/-- A state holding exactly one discovered candidate. -/
def sNonEmpty : ScraperState := { mkScraper exCom with videos_found := [cexVd1] }

/-- Witness for C8: both phases at concrete states — empty results report
`no_videos_found` and hand nothing over; one result reports
`downloading_videos` with total 1 and hands exactly that candidate over. -/
theorem C8_witness :
    (download_videos (mkScraper exCom)).1.progress.status = "no_videos_found" ∧
      (download_videos (mkScraper exCom)).2 = [] ∧
      (download_videos sNonEmpty).1.progress.status = "downloading_videos" ∧
      (download_videos sNonEmpty).1.progress.total_to_download = some 1 ∧
      (download_videos sNonEmpty).2 = [cexVd1] :=
  ⟨((C8_thm.1 (mkScraper exCom)).1 rfl).1,
   ((C8_thm.1 (mkScraper exCom)).1 rfl).2.1,
   ((C8_thm.1 sNonEmpty).2 (by decide)).1,
   ((C8_thm.1 sNonEmpty).2 (by decide)).2.1,
   ((C8_thm.1 sNonEmpty).2 (by decide)).2.2.1⟩

/-! ### C9 -/

/-- C9: `get_video_info` is total — for every outcome of the external
extractor it returns either the success record (with the description
truncated to at most 500 characters and the fixed best-format fields) or,
on any failure, the failure record with the error message and the safe
defaults `title = "YouTube Video"`, empty thumbnail and zero duration; no
exception reaches the caller. -/
theorem C9_thm (r : Except String YtInfo) :
    (∀ e, r = .error e →
      get_video_info r = .fail e "YouTube Video" "" 0) ∧
    (∀ info, r = .ok info →
      get_video_info r =
          .ok (info.title.getD "Unknown") (info.thumbnail.getD "")
            (info.duration.getD 0) (info.uploader.getD "")
            (info.view_count.getD 0) (info.like_count.getD 0)
            (strTake (info.description.getD "") 500)
            (info.formats.getD []).length "mp3" "mp4" ∧
        (strTake (info.description.getD "") 500).length ≤ 500) := by
  constructor
  · intro e he
    subst he
    rfl
  · intro info hi
    subst hi
    exact ⟨rfl, strTake_length_le _ _⟩

/-- Witness for C9: a failing extraction and a successful one, both at
concrete inputs. -/
theorem C9_witness :
    get_video_info (Except.error "boom") = InfoResult.fail "boom" "YouTube Video" "" 0 ∧
      get_video_info (Except.ok cexInfo) =
        InfoResult.ok "t" "" 7 "" 0 3 (strTake "d" 500) 2 "mp3" "mp4" ∧
      (strTake "d" 500).length ≤ 500 :=
  ⟨(C9_thm (Except.error "boom")).1 "boom" rfl,
   ((C9_thm (Except.ok cexInfo)).2 cexInfo rfl).1,
   ((C9_thm (Except.ok cexInfo)).2 cexInfo rfl).2⟩

/-! ### C10 -/

/-- C10: within one page pass each selector contributes at most one
candidate — the element scan stops at the first element that extracts to a
candidate with a url — so a page pass with the 5 configured selectors yields
at most 5 candidates however many elements match. -/
theorem C10_thm (url : Url) (sms : List (List Element)) (elems : List Element)
    (e : Element) (rest : List Element) (vd : VideoData) :
    (scanSelector url elems).length ≤ 1 ∧
    (extract_video_data e url = some vd → scanSelector url (e :: rest) = [vd]) ∧
    (videos_on_page url sms).length ≤ sms.length ∧
    (sms.length = 5 → (videos_on_page url sms).length ≤ 5) := by
  refine ⟨scanSelector_length_le url elems, ?_, videos_on_page_length_le url sms, ?_⟩
  · intro hx
    simp [scanSelector, hx]
  · intro h5
    have := videos_on_page_length_le url sms
    omega

/-- Witness for C10: on a concrete page pass with five selectors, the first
selector's scan stops at its first matching element, and the whole pass
yields at most five candidates. -/
theorem C10_witness :
    (scanSelector exCom [vidElemA]).length ≤ 1 ∧
      scanSelector exCom [vidElemA, vidElemB] = [cexVd1] ∧
      (videos_on_page exCom cexSms5).length ≤ 5 :=
  ⟨(C10_thm exCom cexSms5 [vidElemA] vidElemA [vidElemB] cexVd1).1,
   (C10_thm exCom cexSms5 [vidElemA] vidElemA [vidElemB] cexVd1).2.1 (by decide),
   (C10_thm exCom cexSms5 [vidElemA] vidElemA [vidElemB] cexVd1).2.2.2 (by decide)⟩
